import Mathlib

/-!
Verification of the reactAdminPannel front end.

Shallow embedding of the admin dashboard's client-side logic:
the order/booking editor of `ConatctUs.tsx` (convenience fee, totals,
item-category resolution, order saving), the session store of
`AuthContext.tsx` (login, isAuthenticated), and the offering form of
`OfferingForm.tsx` (JSON-in-string nested fields: parseJsonField,
serialization of repeatable sections, edit-mode seeding).

JavaScript `number` values are modelled as rationals (ℚ), strings as
Lean `String`, `null`/`undefined` as `Option`, and thrown exceptions as
explicit error results.
-/

namespace ReactAdminPanel

/-- Models the JavaScript expression `x || d` for `x : string | undefined`:
the default is taken when `x` is `undefined` or the empty string (falsy). -/
def jsOr (x : Option String) (d : String) : String :=
  match x with
  | none => d
  | some s => if s = "" then d else s

/-! ### Order editor data model (ConatctUs.tsx, HistoryTable section) -/

/-- Interface `OrderItem` of ConatctUs.tsx (order editor section).
`category` is optional: it is filled in by `fetchOrderItems`. -/
structure OrderItem where
  order_item_id : ℤ
  product_id : String
  product_name : String
  quantity : ℚ
  price : ℚ
  category : Option String
deriving DecidableEq

/-- The cleaning-category subtotal computed at the start of
`calculateConvenienceFee`: sum of `price * quantity` over the items whose
`category` is exactly "Cleaning Services". -/
def cleaningSubtotal (items : List OrderItem) : ℚ :=
  (items.filter fun item => item.category == some "Cleaning Services").foldl
    (fun total item => total + item.price * item.quantity) 0

/-- `calculateConvenienceFee` of ConatctUs.tsx: 0 when the cleaning subtotal
is not positive; 39 when it is positive and below 500; otherwise
`39 + Math.floor(sub / 500) * 10`. -/
def calculateConvenienceFee (items : List OrderItem) : ℚ :=
  if 0 < cleaningSubtotal items then
    if cleaningSubtotal items < 500 then 39
    else 39 + (⌊cleaningSubtotal items / 500⌋ : ℚ) * 10
  else 0

/-- `calculateSubtotal` of ConatctUs.tsx, parameterized by the `orderItems`
state it closes over: `reduce((sum, item) => sum + item.price * item.quantity, 0)`. -/
def calculateSubtotal (orderItems : List OrderItem) : ℚ :=
  orderItems.foldl (fun sum item => sum + item.price * item.quantity) 0

/-- `calculateTotal` of ConatctUs.tsx: subtotal plus convenience fee over the
same item list. -/
def calculateTotal (orderItems : List OrderItem) : ℚ :=
  calculateSubtotal orderItems + calculateConvenienceFee orderItems

/-- Folding `+ f x` over a list starting from `a` is `a` plus the sum of the
mapped list. -/
theorem foldl_add_eq_map_sum {α : Type} (f : α → ℚ) (l : List α) :
    ∀ a : ℚ, l.foldl (fun s x => s + f x) a = a + (l.map f).sum := by
  induction l with
  | nil => intro a; simp
  | cons x xs ih => intro a; simp only [List.foldl_cons, List.map_cons, List.sum_cons, ih]; ring

/-- C1: the convenience fee is 0 when the cleaning-category subtotal is 0,
39 when that subtotal is strictly between 0 and 500, and
`39 + 10 * ⌊subtotal / 500⌋` when the subtotal is at least 500. -/
theorem calculateConvenienceFee_cases (items : List OrderItem) :
    (cleaningSubtotal items = 0 → calculateConvenienceFee items = 0) ∧
    (0 < cleaningSubtotal items → cleaningSubtotal items < 500 →
      calculateConvenienceFee items = 39) ∧
    (500 ≤ cleaningSubtotal items →
      calculateConvenienceFee items = 39 + 10 * (⌊cleaningSubtotal items / 500⌋ : ℚ)) := by
  refine ⟨?_, ?_, ?_⟩
  · intro h
    simp [calculateConvenienceFee, h]
  · intro h0 h5
    simp [calculateConvenienceFee, h0, h5]
  · intro h
    have h0 : (0:ℚ) < cleaningSubtotal items := lt_of_lt_of_le (by norm_num) h
    have h5 : ¬ cleaningSubtotal items < 500 := not_lt.mpr h
    simp [calculateConvenienceFee, h0, h5]
    ring

/-- Concrete order item list whose cleaning subtotal is 1200 (600 × 2). -/
def feeWitnessItems : List OrderItem :=
  [{ order_item_id := 1, product_id := "CLN-001", product_name := "Deep Cleaning",
     quantity := 2, price := 600, category := some "Cleaning Services" }]

/-- Witness for C1: on a cleaning subtotal of 1200 the third case applies and
the fee evaluates to 39 + 10 × 2 = 59. -/
theorem calculateConvenienceFee_cases_witness :
    (500:ℚ) ≤ cleaningSubtotal feeWitnessItems ∧
    calculateConvenienceFee feeWitnessItems = 59 := by
  have hsub : cleaningSubtotal feeWitnessItems = 1200 := by
    simp [cleaningSubtotal, feeWitnessItems]
    norm_num
  have h5 : (500:ℚ) ≤ cleaningSubtotal feeWitnessItems := by
    rw [hsub]; norm_num
  refine ⟨h5, ?_⟩
  have hmain := (calculateConvenienceFee_cases feeWitnessItems).2.2 h5
  rw [hmain, hsub]
  norm_num

/-- C2: the editor total is the sum of `price × quantity` over all items of
every category, plus the convenience fee computed from the same list. -/
theorem calculateTotal_eq_sum_add_fee (orderItems : List OrderItem) :
    calculateTotal orderItems =
      (orderItems.map fun item => item.price * item.quantity).sum +
        calculateConvenienceFee orderItems := by
  unfold calculateTotal calculateSubtotal
  rw [foldl_add_eq_map_sum (fun item => item.price * item.quantity) orderItems 0]
  ring

/-- Appending a non-cleaning item in front leaves the cleaning subtotal
unchanged. -/
theorem cleaningSubtotal_cons_of_ne (item : OrderItem) (xs : List OrderItem)
    (h : item.category ≠ some "Cleaning Services") :
    cleaningSubtotal (item :: xs) = cleaningSubtotal xs := by
  unfold cleaningSubtotal
  have hp : (item.category == some "Cleaning Services") = false := by
    simpa using h
  simp [List.filter_cons, hp]

/-- C9: the convenience fee depends only on the cleaning-category subtotal:
two item lists with equal cleaning subtotals get the same fee, and consing a
non-cleaning item (equivalently, removing one) never changes the fee. -/
theorem calculateConvenienceFee_cleaning_only :
    (∀ xs ys : List OrderItem, cleaningSubtotal xs = cleaningSubtotal ys →
        calculateConvenienceFee xs = calculateConvenienceFee ys) ∧
    (∀ (item : OrderItem) (xs : List OrderItem),
        item.category ≠ some "Cleaning Services" →
        calculateConvenienceFee (item :: xs) = calculateConvenienceFee xs) := by
  constructor
  · intro xs ys h
    unfold calculateConvenienceFee
    rw [h]
  · intro item xs h
    unfold calculateConvenienceFee
    rw [cleaningSubtotal_cons_of_ne item xs h]

/-- A non-cleaning item (a repair service). -/
def repairWitnessItem : OrderItem :=
  { order_item_id := 2, product_id := "REP-001", product_name := "AC Repair",
    quantity := 1, price := 250, category := some "Repair Services" }

/-- Witness for C9: adding the repair item to the cleaning list leaves the
fee at 59, and equal subtotals give equal fees at a concrete pair. -/
theorem calculateConvenienceFee_cleaning_only_witness :
    calculateConvenienceFee (repairWitnessItem :: feeWitnessItems) =
      calculateConvenienceFee feeWitnessItems := by
  have h : repairWitnessItem.category ≠ some "Cleaning Services" := by
    simp [repairWitnessItem]
  exact calculateConvenienceFee_cleaning_only.2 repairWitnessItem feeWitnessItems h

/-! ### Service catalog and item-category resolution (fetchOrderItems) -/

/-- A row of a service price table (`pricetable` entries in ConatctUs.tsx). -/
structure PriceRow where
  bhk : String
  price : String
  time : String
deriving DecidableEq

/-- Interface `Service` of ConatctUs.tsx. -/
structure Service where
  service_code : String
  name : String
  price : String
  pricetable : Option (List PriceRow)
  category : String
  subCategory : String
deriving DecidableEq

/-- JavaScript `s.startsWith(p)`. -/
def jsStartsWith (s p : String) : Bool :=
  p.data.isPrefixOf s.data

/-- The mapping step of `fetchOrderItems` in ConatctUs.tsx: each fetched item
gets `category = service?.category || "Unknown"` where `service` is
`services.find(s => item.product_id.startsWith(s.service_code))`. -/
def fetchOrderItemsMap (services : List Service) (items : List OrderItem) :
    List OrderItem :=
  items.map fun item =>
    let service := services.find? fun s => jsStartsWith item.product_id s.service_code
    { item with category := some (jsOr (service.map Service.category) "Unknown") }

/-- C5 (amended): each loaded item's category is the category of the first
catalog service whose code is a prefix of the item's product id, except that
an empty matched category also falls back to "Unknown"; with no match it is
"Unknown"; all other item fields are preserved. -/
theorem fetchOrderItemsMap_category (services : List Service) (items : List OrderItem) :
    (fetchOrderItemsMap services items).length = items.length ∧
    ∀ i (hi : i < items.length) (hi' : i < (fetchOrderItemsMap services items).length),
      (fetchOrderItemsMap services items).get ⟨i, hi'⟩ =
        { items.get ⟨i, hi⟩ with
          category :=
            some (match services.find? (fun s =>
                    jsStartsWith (items.get ⟨i, hi⟩).product_id s.service_code) with
              | some s => if s.category = "" then "Unknown" else s.category
              | none => "Unknown") } := by
  constructor
  · simp [fetchOrderItemsMap]
  · intro i hi hi'
    simp only [fetchOrderItemsMap, List.get_eq_getElem, List.getElem_map]
    cases hfind : services.find? fun s =>
        jsStartsWith (items.get ⟨i, hi⟩).product_id s.service_code with
    | none =>
        simp [List.get_eq_getElem] at hfind ⊢
        rfl
    | some s =>
        simp [List.get_eq_getElem] at hfind ⊢
        by_cases hc : s.category = "" <;> simp [jsOr, hc]

/-- A catalog service whose category is the empty string. -/
def emptyCategoryService : Service :=
  { service_code := "CLN", name := "Cleaning", price := "0", pricetable := none,
    category := "", subCategory := "" }

/-- An order item (as fetched, before category resolution) matching the
empty-category service by prefix. -/
def cexFetchedItem : OrderItem :=
  { order_item_id := 3, product_id := "CLN-001", product_name := "Cleaning",
    quantity := 1, price := 100, category := none }

/-- Counterexample to C5 as stated: the first (and only) catalog service whose
code is a prefix of the product id has category `""`, yet the resolved item
category is "Unknown", not that service's category. -/
theorem fetchOrderItemsMap_category_cex :
    jsStartsWith cexFetchedItem.product_id emptyCategoryService.service_code = true ∧
    emptyCategoryService.category = "" ∧
    (fetchOrderItemsMap [emptyCategoryService] [cexFetchedItem]).map
        (fun item => item.category) = [some "Unknown"] := by
  refine ⟨by decide, rfl, by decide⟩

/-- Witness for C5 (amended): at a one-service catalog with a non-empty
category, item index 0 resolves to that category. -/
def witService : Service :=
  { service_code := "CLN", name := "Cleaning", price := "0", pricetable := none,
    category := "Cleaning Services", subCategory := "Full Home" }

/-- Witness applying `fetchOrderItemsMap_category` at index 0 of a concrete
catalog and item list. -/
theorem fetchOrderItemsMap_category_witness :
    (fetchOrderItemsMap [witService] [cexFetchedItem]).get
        ⟨0, by decide⟩ =
      { cexFetchedItem with category := some "Cleaning Services" } := by
  have h := (fetchOrderItemsMap_category [witService] [cexFetchedItem]).2 0
    (by decide) (by decide)
  rw [h]
  decide

/-! ### Order editing (handleEditOrder in ConatctUs.tsx) -/

/-- The `mode` field of the modal state ("view" | "edit"). -/
inductive ModalMode where
  | view
  | edit
deriving DecidableEq

/-- Interface `ModalState` of ConatctUs.tsx. -/
structure ModalState where
  isOpen : Bool
  mode : Option ModalMode
deriving DecidableEq

/-- Interface `Order` of ConatctUs.tsx. -/
structure Order where
  order_id : ℤ
  order_number : String
  created_at : String
  first_name : String
  last_name : String
  guest_email : Option String
  guest_phone : Option String
  items : String
  total : String
  status : String
  address_line1 : String
  address_line2 : Option String
  city : String
  state : String
  zip_code : String
deriving DecidableEq

/-- The request body `handleEditOrder` PUTs to `/api/api/orders/:id`: exactly
the ten mutable header fields of the selected order — the item list is not
part of this payload type at all. -/
structure OrderEditPayload where
  first_name : String
  last_name : String
  guest_email : Option String
  guest_phone : Option String
  address_line1 : String
  address_line2 : Option String
  city : String
  state : String
  zip_code : String
  status : String
deriving DecidableEq

/-- Builds the PUT body of `handleEditOrder` from the selected order. -/
def editOrderPayload (o : Order) : OrderEditPayload :=
  { first_name := o.first_name
    last_name := o.last_name
    guest_email := o.guest_email
    guest_phone := o.guest_phone
    address_line1 := o.address_line1
    address_line2 := o.address_line2
    city := o.city
    state := o.state
    zip_code := o.zip_code
    status := o.status }

/-- The backend's `response.data.order`: a partial order object; absent keys
leave the corresponding field of the local order untouched by the spread. -/
structure OrderPatch where
  order_id : Option ℤ := none
  order_number : Option String := none
  created_at : Option String := none
  first_name : Option String := none
  last_name : Option String := none
  guest_email : Option (Option String) := none
  guest_phone : Option (Option String) := none
  items : Option String := none
  total : Option String := none
  status : Option String := none
  address_line1 : Option String := none
  address_line2 : Option (Option String) := none
  city : Option String := none
  state : Option String := none
  zip_code : Option String := none
deriving DecidableEq

/-- The JS object spread `{ ...order, ...patch }` over order fields. -/
def mergeOrder (o : Order) (p : OrderPatch) : Order :=
  { order_id := p.order_id.getD o.order_id
    order_number := p.order_number.getD o.order_number
    created_at := p.created_at.getD o.created_at
    first_name := p.first_name.getD o.first_name
    last_name := p.last_name.getD o.last_name
    guest_email := p.guest_email.getD o.guest_email
    guest_phone := p.guest_phone.getD o.guest_phone
    items := p.items.getD o.items
    total := p.total.getD o.total
    status := p.status.getD o.status
    address_line1 := p.address_line1.getD o.address_line1
    address_line2 := p.address_line2.getD o.address_line2
    city := p.city.getD o.city
    state := p.state.getD o.state
    zip_code := p.zip_code.getD o.zip_code }

/-- The React state of the HistoryTable component that `handleEditOrder`
reads and writes. -/
structure EditorState where
  orders : List Order
  selectedOrder : Option Order
  orderItems : List OrderItem
  modalState : ModalState
  error : Option String
  isSaving : Bool
deriving DecidableEq

/-- Outcome of an awaited axios call: success value, or a rejection carrying
`err.response?.data?.message` (absent when the error has no response body). -/
inductive AxiosResult (α : Type) where
  | ok (val : α)
  | err (message : Option String)
deriving DecidableEq

/-- `handleEditOrder` of ConatctUs.tsx, with the awaited PUT's outcome made
an explicit argument. Returns the new component state and the request body
that was submitted (none when no order is selected and no request is sent).
On success the matching order is merged with `response.data.order` and the
modal switches to "view"; on failure only `error` is set (and `isSaving`
is reset by the `finally` block). -/
def handleEditOrder (resp : AxiosResult OrderPatch) (s : EditorState) :
    EditorState × Option OrderEditPayload :=
  match s.selectedOrder with
  | none => (s, none)
  | some selectedOrder =>
    match resp with
    | AxiosResult.ok patch =>
        ({ s with
            orders := s.orders.map fun order =>
              if order.order_id = selectedOrder.order_id
              then mergeOrder order patch else order
            modalState := { isOpen := true, mode := some ModalMode.view }
            isSaving := false },
          some (editOrderPayload selectedOrder))
    | AxiosResult.err m =>
        ({ s with
            error := some (jsOr m "Failed to update order")
            isSaving := false },
          some (editOrderPayload selectedOrder))

/-- C4: saving order edits submits exactly the ten mutable header fields of
the selected order (the payload type has no item list); on success the
backend-returned fields are merged into the matching order, other orders are
untouched, and the modal switches to "view"; on failure the modal state and
the selected order (the fields as last typed) are unchanged and only the
error is surfaced. -/
theorem handleEditOrder_spec (resp : AxiosResult OrderPatch) (s : EditorState)
    (sel : Order) (hsel : s.selectedOrder = some sel) :
    (handleEditOrder resp s).2 = some (editOrderPayload sel) ∧
    (∀ patch, resp = AxiosResult.ok patch →
      (handleEditOrder resp s).1.modalState =
          { isOpen := true, mode := some ModalMode.view } ∧
      (handleEditOrder resp s).1.orders.length = s.orders.length ∧
      (∀ i (hi : i < s.orders.length) (hi' : i < (handleEditOrder resp s).1.orders.length),
        (handleEditOrder resp s).1.orders.get ⟨i, hi'⟩ =
          if (s.orders.get ⟨i, hi⟩).order_id = sel.order_id
          then mergeOrder (s.orders.get ⟨i, hi⟩) patch
          else s.orders.get ⟨i, hi⟩) ∧
      (handleEditOrder resp s).1.selectedOrder = s.selectedOrder ∧
      (handleEditOrder resp s).1.orderItems = s.orderItems ∧
      (handleEditOrder resp s).1.error = s.error) ∧
    (∀ m, resp = AxiosResult.err m →
      (handleEditOrder resp s).1.modalState = s.modalState ∧
      (handleEditOrder resp s).1.selectedOrder = some sel ∧
      (handleEditOrder resp s).1.orders = s.orders ∧
      (handleEditOrder resp s).1.orderItems = s.orderItems ∧
      (handleEditOrder resp s).1.error = some (jsOr m "Failed to update order")) := by
  refine ⟨?_, ?_, ?_⟩
  · cases resp <;> simp [handleEditOrder, hsel]
  · intro patch hresp
    subst hresp
    refine ⟨by simp [handleEditOrder, hsel], by simp [handleEditOrder, hsel], ?_,
      by simp [handleEditOrder, hsel], by simp [handleEditOrder, hsel],
      by simp [handleEditOrder, hsel]⟩
    intro i hi hi'
    simp [handleEditOrder, hsel, List.get_eq_getElem]
  · intro m hresp
    subst hresp
    exact ⟨by simp [handleEditOrder, hsel], by simp [handleEditOrder, hsel],
      by simp [handleEditOrder, hsel], by simp [handleEditOrder, hsel],
      by simp [handleEditOrder, hsel]⟩

/-- A concrete order for the C4 witness. -/
def witOrder : Order :=
  { order_id := 7, order_number := "ORD-7", created_at := "2024-01-01",
    first_name := "Asha", last_name := "Rao", guest_email := some "a@example.com",
    guest_phone := none, items := "1 x Deep Cleaning", total := "1259",
    status := "Pending", address_line1 := "12 Main St", address_line2 := none,
    city := "Guwahati", state := "Assam", zip_code := "781001" }

/-- A concrete editor state in "edit" mode with `witOrder` selected. -/
def witEditorState : EditorState :=
  { orders := [witOrder], selectedOrder := some witOrder, orderItems := [],
    modalState := { isOpen := true, mode := some ModalMode.edit },
    error := none, isSaving := true }

/-- Witness for C4: applying `handleEditOrder_spec` at a concrete failing
save: the header payload is submitted, the modal stays in "edit" mode, the
typed order is untouched, and the backend message is surfaced. -/
theorem handleEditOrder_spec_witness :
    (handleEditOrder (AxiosResult.err (some "No fields to update")) witEditorState).2 =
        some (editOrderPayload witOrder) ∧
    (handleEditOrder (AxiosResult.err (some "No fields to update")) witEditorState).1.modalState =
        { isOpen := true, mode := some ModalMode.edit } ∧
    (handleEditOrder (AxiosResult.err (some "No fields to update")) witEditorState).1.selectedOrder =
        some witOrder ∧
    (handleEditOrder (AxiosResult.err (some "No fields to update")) witEditorState).1.error =
        some "No fields to update" := by
  have h := handleEditOrder_spec (AxiosResult.err (some "No fields to update"))
    witEditorState witOrder rfl
  have he := h.2.2 (some "No fields to update") rfl
  refine ⟨h.1, ?_, he.2.1, ?_⟩
  · rw [he.1]; rfl
  · rw [he.2.2.2.2]; rfl

/-! ### Session store (AuthContext.tsx) -/

/-- Type `AdminUser` of AuthContext.tsx. -/
structure AdminUser where
  id : String
  name : String
  email : String
  phone : Option String
  status : String
  created_at : Option String
deriving DecidableEq

/-- The session store's observable state: the two durable local-storage keys
(`admin_token`, `admin_user`) and the in-memory React state. -/
structure AuthState where
  stored_token : Option String
  stored_admin : Option AdminUser
  token : Option String
  currentAdmin : Option AdminUser
  loading : Bool
deriving DecidableEq

/-- A successful `POST /auth/admin/login` body: `{ token, user }`. -/
structure LoginSuccess where
  token : String
  user : AdminUser
deriving DecidableEq

/-- A JavaScript exception as `login`'s catch block distinguishes them:
a plain `Error`, an axios error without a response, or an axios error whose
response body may carry a `message`. -/
inductive JsError where
  | plain (message : String)
  | axiosNoResponse
  | axiosResponse (message : Option String)
deriving DecidableEq

/-- The `try` block of `login` in AuthContext.tsx: on a backend rejection the
awaited post throws; on acceptance, a non-"active" account status throws a
plain Error mentioning activation BEFORE anything is persisted; otherwise
token and user are written to local storage and to state. Returns the state
after the block and the exception it threw, if any. -/
def loginTry (resp : Sum LoginSuccess JsError) (s : AuthState) :
    AuthState × Option JsError :=
  match resp with
  | Sum.inr e => (s, some e)
  | Sum.inl r =>
    if r.user.status ≠ "active" then
      (s, some (JsError.plain
        "Your account is not active. Please contact the super admin."))
    else
      ({ s with
          stored_token := some r.token
          stored_admin := some r.user
          token := some r.token
          currentAdmin := some r.user },
        none)

/-- `login` of AuthContext.tsx: the `try` block wrapped in the catch that
rethrows `new Error(error.response.data?.message || 'Admin login failed')`
for axios errors with a response and `new Error('Admin login failed')` for
everything else — including the plain activation Error thrown inside the
`try` itself. Returns the resulting state and the rejection message, if any. -/
def login (resp : Sum LoginSuccess JsError) (s : AuthState) :
    AuthState × Option String :=
  match loginTry resp s with
  | (s', none) => (s', none)
  | (s', some (JsError.axiosResponse m)) => (s', some (jsOr m "Admin login failed"))
  | (s', some (JsError.plain _)) => (s', some "Admin login failed")
  | (s', some JsError.axiosNoResponse) => (s', some "Admin login failed")

/-- C3 (code evaluated at the failing input): when the backend accepts the
credentials but the account status is not "active", `login` does reject
before persisting anything — the state, including both local-storage keys,
is returned unchanged — but the surfaced message is the generic
"Admin login failed": the activation Error thrown inside the `try` block is
swallowed by the function's own catch and replaced. -/
theorem login_inactive_rejects (r : LoginSuccess) (s : AuthState)
    (h : r.user.status ≠ "active") :
    loginTry (Sum.inl r) s =
      (s, some (JsError.plain
        "Your account is not active. Please contact the super admin.")) ∧
    login (Sum.inl r) s = (s, some "Admin login failed") := by
  have ht : loginTry (Sum.inl r) s =
      (s, some (JsError.plain
        "Your account is not active. Please contact the super admin.")) := by
    simp [loginTry, h]
  exact ⟨ht, by simp [login, ht]⟩

/-- An inactive admin account. -/
def inactiveAdmin : AdminUser :=
  { id := "9", name := "New Admin", email := "new@example.com",
    phone := none, status := "inactive", created_at := none }

/-- An empty (logged-out) session state. -/
def emptyAuthState : AuthState :=
  { stored_token := none, stored_admin := none, token := none,
    currentAdmin := none, loading := false }

/-- Witness for C3: a concrete accepted login for an account with status
"inactive" rejects with "Admin login failed" and leaves the empty session
state — in particular both local-storage keys — untouched. -/
theorem login_inactive_rejects_witness :
    login (Sum.inl { token := "tok123", user := inactiveAdmin }) emptyAuthState =
      (emptyAuthState, some "Admin login failed") := by
  exact (login_inactive_rejects { token := "tok123", user := inactiveAdmin }
    emptyAuthState (by decide)).2

/-- `isAuthenticated` as the provider computes it: `!!token`, the JavaScript
truthiness of a `string | null` value — false for `null` AND for the empty
string. -/
def isAuthenticated (s : AuthState) : Bool :=
  match s.token with
  | none => false
  | some t => !(t = "")

/-- Counterexample to C8 as stated: a session state whose in-memory token is
the empty string (not null) has `isAuthenticated = false`, so
`isAuthenticated ⟺ token ≠ null` fails. -/
theorem isAuthenticated_cex :
    isAuthenticated { emptyAuthState with token := some "" } = false ∧
    ({ emptyAuthState with token := some "" } : AuthState).token ≠ none := by
  exact ⟨rfl, by simp⟩

/-- C8 (amended): in every session state, `isAuthenticated` is true exactly
when the in-memory token is neither null nor the empty string (JS `!!token`
on a `string | null`). -/
theorem isAuthenticated_iff (s : AuthState) :
    isAuthenticated s = true ↔ (s.token ≠ none ∧ s.token ≠ some "") := by
  unfold isAuthenticated
  cases h : s.token with
  | none => simp
  | some t =>
      by_cases ht : t = "" <;> simp [ht]

/-- Witness for C8 (amended): a state with token "tok123" is authenticated. -/
theorem isAuthenticated_iff_witness :
    isAuthenticated { emptyAuthState with token := some "tok123" } = true := by
  exact (isAuthenticated_iff { emptyAuthState with token := some "tok123" }).mpr
    ⟨by simp, by simp⟩

/-! ### JSON values (OfferingForm.tsx boundary)

JSON.parse / JSON.stringify are modelled on an explicit JSON value type.
The parser is a fuelled recursive-descent parser for standard JSON (the
`\uXXXX` escapes outside the surrogate range included); the serializer
covers the values the offering form produces (strings, booleans, null,
arrays, objects; integer numbers). Objects keep JS key semantics: duplicate
keys keep the first position with the last value, as assignment does. -/

/-- A JSON value (the result of a successful `JSON.parse`). -/
inductive Json where
  | null
  | bool (b : Bool)
  | num (q : ℚ)
  | str (s : String)
  | arr (elements : List Json)
  | obj (fields : List (String × Json))

/-- The opening brace character. -/
def obraceChar : Char := Char.ofNat 123

/-- The closing brace character. -/
def cbraceChar : Char := Char.ofNat 125

/-- Drop leading JSON whitespace. -/
def skipWs : List Char → List Char
  | [] => []
  | c :: cs => if c = ' ' ∨ c = '\t' ∨ c = '\n' ∨ c = '\r' then skipWs cs else c :: cs

/-- Value of a hexadecimal digit. -/
def hexVal (c : Char) : Option Nat :=
  if '0' ≤ c ∧ c ≤ '9' then some (c.toNat - 48)
  else if 'a' ≤ c ∧ c ≤ 'f' then some (c.toNat - 87)
  else if 'A' ≤ c ∧ c ≤ 'F' then some (c.toNat - 55)
  else none

/-- Body of a JSON string literal (after the opening quote): returns the
decoded string and the input after the closing quote. -/
def parseStringBody : Nat → List Char → List Char → Option (String × List Char)
  | 0, _, _ => none
  | _ + 1, [], _ => none
  | fuel + 1, c :: cs, acc =>
    if c = '"' then some (String.mk acc.reverse, cs)
    else if c = '\\' then
      match cs with
      | [] => none
      | e :: cs' =>
        if e = '"' then parseStringBody fuel cs' ('"' :: acc)
        else if e = '\\' then parseStringBody fuel cs' ('\\' :: acc)
        else if e = '/' then parseStringBody fuel cs' ('/' :: acc)
        else if e = 'n' then parseStringBody fuel cs' ('\n' :: acc)
        else if e = 't' then parseStringBody fuel cs' ('\t' :: acc)
        else if e = 'r' then parseStringBody fuel cs' ('\r' :: acc)
        else if e = 'b' then parseStringBody fuel cs' ('\x08' :: acc)
        else if e = 'f' then parseStringBody fuel cs' ('\x0c' :: acc)
        else if e = 'u' then
          match cs' with
          | h1 :: h2 :: h3 :: h4 :: cs'' =>
            match hexVal h1, hexVal h2, hexVal h3, hexVal h4 with
            | some a, some b, some c, some d =>
                parseStringBody fuel cs''
                  (Char.ofNat (((a * 16 + b) * 16 + c) * 16 + d) :: acc)
            | _, _, _, _ => none
          | _ => none
        else none
    else if c.toNat < 32 then none
    else parseStringBody fuel cs (c :: acc)

/-- Digits to a natural number. -/
def digitsToNat (ds : List Char) : Nat :=
  ds.foldl (fun a c => a * 10 + (c.toNat - 48)) 0

/-- Optional fraction part `.ddd` of a JSON number. -/
def parseFrac (cs : List Char) : Option (ℚ × List Char) :=
  match cs with
  | '.' :: rest =>
      let p := rest.span (fun c => c.isDigit)
      if p.1.isEmpty then none
      else some ((digitsToNat p.1 : ℚ) / (10 : ℚ) ^ p.1.length, p.2)
  | _ => some (0, cs)

/-- Optional exponent part `e±ddd` of a JSON number. -/
def parseExp (cs : List Char) : Option (ℤ × List Char) :=
  match cs with
  | c :: rest =>
      if c = 'e' ∨ c = 'E' then
        let q : Bool × List Char :=
          match rest with
          | '+' :: r => (false, r)
          | '-' :: r => (true, r)
          | r => (false, r)
        let p := q.2.span (fun c => c.isDigit)
        if p.1.isEmpty then none
        else some ((if q.1 then -(digitsToNat p.1 : ℤ) else (digitsToNat p.1 : ℤ)), p.2)
      else some (0, c :: rest)
  | [] => some (0, [])

/-- A JSON number (no leading zeros, optional sign/fraction/exponent). -/
def parseNumber (cs : List Char) : Option (Json × List Char) :=
  let q : Bool × List Char :=
    match cs with
    | '-' :: rest => (true, rest)
    | _ => (false, cs)
  let p := q.2.span (fun c => c.isDigit)
  if p.1.isEmpty then none
  else if p.1.length > 1 ∧ p.1.head? = some '0' then none
  else
    match parseFrac p.2 with
    | none => none
    | some (frac, cs2) =>
      match parseExp cs2 with
      | none => none
      | some (e, cs3) =>
          let mag : ℚ := ((digitsToNat p.1 : ℚ) + frac) * (10 : ℚ) ^ e
          some (Json.num (if q.1 then -mag else mag), cs3)

/-- JS object-key assignment: replace the value at the first occurrence of
the key, keeping its position, else append the binding at the end. -/
def objInsert : List (String × Json) → String → Json → List (String × Json)
  | [], k, v => [(k, v)]
  | (k', v') :: rest, k, v =>
    if k' = k then (k', v) :: rest else (k', v') :: objInsert rest k v

mutual

/-- Fuelled JSON value parser. -/
def parseValue : Nat → List Char → Option (Json × List Char)
  | 0, _ => none
  | fuel + 1, cs =>
    match skipWs cs with
    | [] => none
    | c :: rest =>
      if c = '"' then
        match parseStringBody (rest.length + 1) rest [] with
        | some (s, r) => some (Json.str s, r)
        | none => none
      else if c = obraceChar then
        match skipWs rest with
        | c2 :: r2 =>
            if c2 = cbraceChar then some (Json.obj [], r2)
            else parseMembers fuel (c2 :: r2) []
        | [] => none
      else if c = '[' then
        match skipWs rest with
        | c2 :: r2 =>
            if c2 = ']' then some (Json.arr [], r2)
            else parseElements fuel (c2 :: r2) []
        | [] => none
      else if c = 't' then
        match rest with
        | 'r' :: 'u' :: 'e' :: r => some (Json.bool true, r)
        | _ => none
      else if c = 'f' then
        match rest with
        | 'a' :: 'l' :: 's' :: 'e' :: r => some (Json.bool false, r)
        | _ => none
      else if c = 'n' then
        match rest with
        | 'u' :: 'l' :: 'l' :: r => some (Json.null, r)
        | _ => none
      else parseNumber (c :: rest)

/-- Fuelled parser for the elements of a non-empty JSON array. -/
def parseElements : Nat → List Char → List Json → Option (Json × List Char)
  | 0, _, _ => none
  | fuel + 1, cs, acc =>
    match parseValue fuel cs with
    | none => none
    | some (v, rest) =>
      match skipWs rest with
      | ',' :: r2 => parseElements fuel r2 (v :: acc)
      | ']' :: r2 => some (Json.arr (v :: acc).reverse, r2)
      | _ => none

/-- Fuelled parser for the members of a non-empty JSON object. -/
def parseMembers : Nat → List Char → List (String × Json) → Option (Json × List Char)
  | 0, _, _ => none
  | fuel + 1, cs, acc =>
    match skipWs cs with
    | c :: r1 =>
      if c = '"' then
        match parseStringBody (r1.length + 1) r1 [] with
        | some (k, r2) =>
          match skipWs r2 with
          | ':' :: r3 =>
            match parseValue fuel r3 with
            | some (v, r4) =>
              match skipWs r4 with
              | ',' :: r5 => parseMembers fuel r5 (objInsert acc k v)
              | c5 :: r5 =>
                  if c5 = cbraceChar then some (Json.obj (objInsert acc k v), r5)
                  else none
              | [] => none
            | none => none
          | _ => none
        | none => none
      else none
    | [] => none

end

/-- `JSON.parse`: parse the whole string (trailing whitespace allowed);
`none` models a thrown `SyntaxError`. -/
def JSONparse (s : String) : Option Json :=
  match parseValue (2 * s.data.length + 2) s.data with
  | some (v, rest) => if skipWs rest = [] then some v else none
  | none => none

/-- Escape one character for a JSON string literal. -/
def escapeChar (c : Char) : List Char :=
  if c = '"' then ['\\', '"']
  else if c = '\\' then ['\\', '\\']
  else if c = '\n' then ['\\', 'n']
  else if c = '\t' then ['\\', 't']
  else if c = '\r' then ['\\', 'r']
  else if c = '\x08' then ['\\', 'b']
  else if c = '\x0c' then ['\\', 'f']
  else [c]

/-- A quoted, escaped JSON string literal. -/
def quoteString (s : String) : String :=
  String.mk ('"' :: s.data.foldr (fun c acc => escapeChar c ++ acc) ['"'])

mutual

/-- `JSON.stringify` body; `none` for values outside the modelled fragment
(the only such values are non-integer numbers, which the offering form
never serializes). -/
def stringifyV : Json → Option String
  | Json.null => some "null"
  | Json.bool true => some "true"
  | Json.bool false => some "false"
  | Json.num q => if q.den = 1 then some (toString q.num) else none
  | Json.str s => some (quoteString s)
  | Json.arr xs =>
    match stringifyL xs with
    | some parts => some ("[" ++ String.intercalate "," parts ++ "]")
    | none => none
  | Json.obj fs =>
    match stringifyF fs with
    | some parts =>
        some (String.mk [obraceChar] ++ String.intercalate "," parts ++ String.mk [cbraceChar])
    | none => none

/-- Serialization of array elements. -/
def stringifyL : List Json → Option (List String)
  | [] => some []
  | x :: xs =>
    match stringifyV x, stringifyL xs with
    | some s, some ss => some (s :: ss)
    | _, _ => none

/-- Serialization of object members. -/
def stringifyF : List (String × Json) → Option (List String)
  | [] => some []
  | (k, v) :: fs =>
    match stringifyV v, stringifyF fs with
    | some s, some ss => some ((quoteString k ++ ":" ++ s) :: ss)
    | _, _ => none

end

/-- `JSON.stringify` on JSON values. -/
def JSONstringify (j : Json) : Option String :=
  stringifyV j

/-! ### parseJsonField and the offering form (OfferingForm.tsx) -/

/-- Look a key up in a JS object's field list (keys are unique). -/
def jsLookup : List (String × Json) → String → Option Json
  | [], _ => none
  | (k', v) :: rest, k => if k' = k then some v else jsLookup rest k

/-- JS property access `item[k]`: `none` models the TypeError thrown on
`null`; otherwise `some` of the property value (`none` inside = undefined;
primitives and arrays have none of the accessed form-field keys). -/
def jsGet (item : Json) (k : String) : Option (Option Json) :=
  match item with
  | Json.null => none
  | Json.obj fields => some (jsLookup fields k)
  | _ => some none

/-- JS nullish coalescing `v ?? d` on a possibly-undefined property value. -/
def jsNullish (v : Option Json) (d : Json) : Json :=
  match v with
  | none => d
  | some Json.null => d
  | some w => w

/-- The own enumerable fields produced by a JS object spread `{...item}`:
objects spread their fields, arrays and strings their indexed elements,
other primitives nothing. -/
def spreadFields : Json → List (String × Json)
  | Json.obj fields => fields
  | Json.arr xs => xs.enum.map (fun p => (toString p.1, p.2))
  | Json.str s => s.data.enum.map (fun p => (toString p.1, Json.str (String.mk [p.2])))
  | _ => []

/-- The six field names `parseJsonField` defaults on each array element. -/
def normalizeKeys : List String := ["desc", "icon", "label", "bhk", "time", "price"]

/-- The element mapping of `parseJsonField`:
`{...item, desc: item.desc ?? "", icon: …, label: …, bhk: …, time: …, price: …}`.
`none` models the TypeError a `null` element throws on property access. -/
def normalizeItem (item : Json) : Option Json :=
  match jsGet item "desc", jsGet item "icon", jsGet item "label",
        jsGet item "bhk", jsGet item "time", jsGet item "price" with
  | some dv, some iv, some lv, some bv, some tv, some pv =>
      some (Json.obj
        (objInsert (objInsert (objInsert (objInsert (objInsert (objInsert
          (spreadFields item)
          "desc" (jsNullish dv (Json.str "")))
          "icon" (jsNullish iv (Json.str "")))
          "label" (jsNullish lv (Json.str "")))
          "bhk" (jsNullish bv (Json.str "")))
          "time" (jsNullish tv (Json.str "")))
          "price" (jsNullish pv (Json.str ""))))
  | _, _, _, _, _, _ => none

/-- `parsed.map(item => …)` with a callback that can throw: the first
throwing element aborts the whole map. -/
def mapNormalize : List Json → Option (List Json)
  | [] => some []
  | x :: xs =>
    match normalizeItem x, mapNormalize xs with
    | some y, some ys => some (y :: ys)
    | _, _ => none

/-- `parseJsonField` of OfferingForm.tsx: falsy input (undefined, null, "")
returns the default; a parse error, a non-array parse, or a TypeError while
mapping (all caught by the surrounding try/catch) returns the default;
otherwise the mapped array. -/
def parseJsonField (field : Option String) (defaultValue : List Json) : List Json :=
  match field with
  | none => defaultValue
  | some s =>
    if s = "" then defaultValue
    else
      match JSONparse s with
      | none => defaultValue
      | some (Json.arr xs) =>
        match mapNormalize xs with
        | some ys => ys
        | none => defaultValue
      | some _ => defaultValue

/-- The nested-field serialization of `createMutation`/`updateMutation`:
`data.features?.length ? JSON.stringify(data.features) : undefined`. -/
def serializeNestedField (field : Option (List Json)) : Option String :=
  match field with
  | none => none
  | some xs =>
    if xs.length = 0 then none
    else
      match JSONstringify (Json.arr xs) with
      | some s => some s
      | none => none

/-- Interface `Offering` of types/offering.ts. -/
structure Offering where
  id : ℤ
  service_code : String
  name : String
  description : Option String
  icon : Option String
  price : Option String
  category : Option String
  subCategory : Option String
  image : Option String
  features : Option String
  requirements : Option String
  exclusions : Option String
  pricetable : Option String
  popular : Option Bool
  whatsapp_message : Option String

/-- The offering form's field values (zod schema `formSchema`): nested
sections as editable arrays of records. -/
structure FormValues where
  service_code : String
  name : String
  description : String
  icon : String
  price : String
  category : String
  subCategory : String
  image : String
  features : List Json
  requirements : List Json
  exclusions : List Json
  pricetable : List Json
  popular : Bool
  whatsapp_message : String

/-- The empty feature row `{ desc: "", icon: "", label: "" }`. -/
def featurePlaceholder : Json :=
  Json.obj [("desc", Json.str ""), ("icon", Json.str ""), ("label", Json.str "")]

/-- The empty requirement row `{ icon: "", label: "" }`. -/
def requirementPlaceholder : Json :=
  Json.obj [("icon", Json.str ""), ("label", Json.str "")]

/-- The empty exclusion row `{ icon: "", label: "" }`. -/
def exclusionPlaceholder : Json :=
  Json.obj [("icon", Json.str ""), ("label", Json.str "")]

/-- The empty price-table row `{ bhk: "", time: "", price: "" }`. -/
def priceRowPlaceholder : Json :=
  Json.obj [("bhk", Json.str ""), ("time", Json.str ""), ("price", Json.str "")]

/-- The `form.reset({...})` argument in edit mode (OfferingForm.tsx, the
`open && offering` branch): scalar fields default with `||`, nested fields
go through `parseJsonField`, and the price table's default is the EMPTY
array, not a placeholder row. -/
def editSeed (offering : Offering) : FormValues :=
  { service_code := jsOr (some offering.service_code) ""
    name := jsOr (some offering.name) ""
    description := jsOr offering.description ""
    icon := jsOr offering.icon ""
    price := jsOr offering.price ""
    category := jsOr offering.category ""
    subCategory := jsOr offering.subCategory ""
    image := jsOr offering.image ""
    features := parseJsonField offering.features [featurePlaceholder]
    requirements := parseJsonField offering.requirements [requirementPlaceholder]
    exclusions := parseJsonField offering.exclusions [exclusionPlaceholder]
    pricetable := parseJsonField offering.pricetable []
    popular := offering.popular.getD false
    whatsapp_message := jsOr offering.whatsapp_message "" }

/-- `if (featureFields.length === 0) addEmptyFeature()` of the seeding
effect. -/
def ensureFeatureRow (v : FormValues) : FormValues :=
  if v.features.length = 0 then { v with features := v.features ++ [featurePlaceholder] } else v

/-- `if (requirementFields.length === 0) addEmptyRequirement()`. -/
def ensureRequirementRow (v : FormValues) : FormValues :=
  if v.requirements.length = 0 then
    { v with requirements := v.requirements ++ [requirementPlaceholder] } else v

/-- `if (exclusionFields.length === 0) addEmptyExclusion()`. -/
def ensureExclusionRow (v : FormValues) : FormValues :=
  if v.exclusions.length = 0 then
    { v with exclusions := v.exclusions ++ [exclusionPlaceholder] } else v

/-- The price-table branch of the seeding effect: a placeholder row is added
only for "Cleaning Services" with subcategory "Full Home" or "Empty Home". -/
def ensurePriceTableRow (v : FormValues) : FormValues :=
  if v.category = "Cleaning Services" ∧
      (v.subCategory = "Full Home" ∨ v.subCategory = "Empty Home") ∧
      v.pricetable.length = 0 then
    { v with pricetable := v.pricetable ++ [priceRowPlaceholder] }
  else v

/-- The whole `useEffect` that keeps at least one editable row per section. -/
def ensureRows (v : FormValues) : FormValues :=
  ensurePriceTableRow (ensureExclusionRow (ensureRequirementRow (ensureFeatureRow v)))

/-- A field that is absent (undefined/null/empty string) or whose string
does not parse as JSON. -/
def absentOrUnparsable (field : Option String) : Prop :=
  match field with
  | none => True
  | some s => s = "" ∨ JSONparse s = none

/-- Property lookup on a JSON value that is an object (observation helper
for stating what the normalized elements contain). -/
def objLookup (j : Json) (k : String) : Option Json :=
  match j with
  | Json.obj fields => jsLookup fields k
  | _ => none

/-- Looking up the inserted key finds the inserted value. -/
theorem jsLookup_objInsert_self (fs : List (String × Json)) (k : String) (v : Json) :
    jsLookup (objInsert fs k v) k = some v := by
  induction fs with
  | nil => simp [objInsert, jsLookup]
  | cons p rest ih =>
      by_cases h : p.1 = k <;> simp [objInsert, jsLookup, h, ih]

/-- Inserting a different key does not change a lookup. -/
theorem jsLookup_objInsert_other (fs : List (String × Json)) (k' k : String) (v : Json)
    (h : ¬ k' = k) :
    jsLookup (objInsert fs k' v) k = jsLookup fs k := by
  induction fs with
  | nil => simp [objInsert, jsLookup, h]
  | cons p rest ih =>
      by_cases hp : p.1 = k' <;> simp [objInsert, jsLookup, hp, h, ih]

/-- On a non-null element, `normalizeItem` succeeds and the result carries
each of the six form keys, defaulted to `""` exactly when the element's
property was undefined or null. -/
theorem normalizeItem_keys (x : Json) (hx : x ≠ Json.null) :
    ∃ y, normalizeItem x = some y ∧
      ∀ k ∈ normalizeKeys, ∃ ov, jsGet x k = some ov ∧
        objLookup y k = some (jsNullish ov (Json.str "")) := by
  cases x
  case null => exact absurd rfl hx
  all_goals
    refine ⟨_, rfl, ?_⟩
    intro k hk
    simp only [normalizeKeys, List.mem_cons, List.not_mem_nil, or_false] at hk
    rcases hk with rfl | rfl | rfl | rfl | rfl | rfl <;>
      exact ⟨_, rfl, by
        simp (disch := decide) only [objLookup, jsLookup_objInsert_self,
          jsLookup_objInsert_other]⟩

/-- A null element makes the whole map throw. -/
theorem mapNormalize_eq_none_of_mem_null (xs : List Json) (h : Json.null ∈ xs) :
    mapNormalize xs = none := by
  induction xs with
  | nil => cases h
  | cons x xs ih =>
    rcases List.mem_cons.mp h with rfl | hmem
    · simp [mapNormalize, normalizeItem, jsGet]
    · cases hx : normalizeItem x <;> simp [mapNormalize, hx, ih hmem]

/-- Without null elements the map succeeds, element by element. -/
theorem mapNormalize_forall₂ (xs : List Json) (h : Json.null ∉ xs) :
    ∃ ys, mapNormalize xs = some ys ∧
      List.Forall₂ (fun x y => ∀ k ∈ normalizeKeys, ∃ ov, jsGet x k = some ov ∧
          objLookup y k = some (jsNullish ov (Json.str ""))) xs ys := by
  induction xs with
  | nil => exact ⟨[], rfl, List.Forall₂.nil⟩
  | cons x xs ih =>
    have hx : x ≠ Json.null := fun he => h (he ▸ List.mem_cons_self x xs)
    have hxs : Json.null ∉ xs := fun hm => h (List.mem_cons_of_mem _ hm)
    obtain ⟨y, hy, hkeys⟩ := normalizeItem_keys x hx
    obtain ⟨ys, hys, hfa⟩ := ih hxs
    exact ⟨y :: ys, by simp [mapNormalize, hy, hys], List.Forall₂.cons hkeys hfa⟩

/-- An absent or unparsable field yields the supplied default. -/
theorem parseJsonField_of_absentOrUnparsable (field : Option String)
    (d : List Json) (h : absentOrUnparsable field) :
    parseJsonField field d = d := by
  cases field with
  | none => rfl
  | some s =>
    simp only [absentOrUnparsable] at h
    rcases h with h | h
    · simp [parseJsonField, h]
    · by_cases hs : s = ""
      · simp [parseJsonField, hs]
      · simp [parseJsonField, hs, h]

/-- C10 (amended): `parseJsonField` is total; it returns the supplied
default for undefined/null input, the empty string, unparsable JSON,
JSON that is not an array, and arrays containing a null element (whose
property access throws inside the try block and is caught); for arrays
without null elements it returns the element-wise normalized array, where
each element's desc, icon, label, bhk, time and price are the original
property values with undefined or null replaced by the empty string. -/
theorem parseJsonField_spec (d : List Json) :
    parseJsonField none d = d ∧
    parseJsonField (some "") d = d ∧
    (∀ s : String, JSONparse s = none → parseJsonField (some s) d = d) ∧
    (∀ (s : String) (j : Json), JSONparse s = some j →
      (∀ xs, j ≠ Json.arr xs) → parseJsonField (some s) d = d) ∧
    (∀ (s : String) (xs : List Json), JSONparse s = some (Json.arr xs) →
      Json.null ∈ xs → parseJsonField (some s) d = d) ∧
    (∀ (s : String) (xs : List Json), JSONparse s = some (Json.arr xs) →
      Json.null ∉ xs →
      List.Forall₂ (fun x y => ∀ k ∈ normalizeKeys, ∃ ov, jsGet x k = some ov ∧
          objLookup y k = some (jsNullish ov (Json.str "")))
        xs (parseJsonField (some s) d)) := by
  have hne : ∀ (s : String) (j : Json), JSONparse s = some j → ¬ s = "" := by
    intro s j hj hs
    rw [hs] at hj
    exact Option.noConfusion ((rfl : JSONparse "" = none) ▸ hj)
  refine ⟨rfl, rfl, ?_, ?_, ?_, ?_⟩
  · intro s h
    by_cases hs : s = ""
    · simp [parseJsonField, hs]
    · simp [parseJsonField, hs, h]
  · intro s j hj hnotarr
    have hs := hne s j hj
    cases j with
    | arr xs => exact absurd rfl (hnotarr xs)
    | null => simp [parseJsonField, hs, hj]
    | bool b => simp [parseJsonField, hs, hj]
    | num q => simp [parseJsonField, hs, hj]
    | str t => simp [parseJsonField, hs, hj]
    | obj fs => simp [parseJsonField, hs, hj]
  · intro s xs hj hmem
    have hs := hne s _ hj
    simp [parseJsonField, hs, hj, mapNormalize_eq_none_of_mem_null xs hmem]
  · intro s xs hj hmem
    have hs := hne s _ hj
    obtain ⟨ys, hys, hfa⟩ := mapNormalize_forall₂ xs hmem
    have : parseJsonField (some s) d = ys := by
      simp [parseJsonField, hs, hj, hys]
    rw [this]
    exact hfa

/-- Witness for C10 (amended): the array branch at the concrete input
`["a"]`, which has no null element. -/
theorem parseJsonField_spec_witness :
    JSONparse "[\"a\"]" = some (Json.arr [Json.str "a"]) ∧
    List.Forall₂ (fun x y => ∀ k ∈ normalizeKeys, ∃ ov, jsGet x k = some ov ∧
        objLookup y k = some (jsNullish ov (Json.str "")))
      [Json.str "a"] (parseJsonField (some "[\"a\"]") []) := by
  refine ⟨rfl, ?_⟩
  exact (parseJsonField_spec []).2.2.2.2.2 "[\"a\"]" [Json.str "a"] rfl (by simp)

/-- Counterexample to C10 as stated: `"[null]"` parses to a one-element
array, yet `parseJsonField` returns the default (here `[]`, of length 0 ≠ 1)
instead of that array with defaulted fields: the element's property access
throws and the catch returns the default. -/
theorem parseJsonField_null_element_cex :
    JSONparse "[null]" = some (Json.arr [Json.null]) ∧
    parseJsonField (some "[null]") [] = [] ∧
    (parseJsonField (some "[null]") []).length ≠ 1 := by
  refine ⟨rfl, rfl, ?_⟩
  rw [show parseJsonField (some "[null]") [] = [] from rfl]
  decide

/-- The feature record `{label: "Fast", icon: "", desc: ""}` as form state
(object-literal key order of the form's default values). -/
def fastFeature : Json :=
  Json.obj [("desc", Json.str ""), ("icon", Json.str ""), ("label", Json.str "Fast")]

/-- C6: submitting `features = [{label:"Fast", icon:"", desc:""}]` serializes
to a JSON string on the wire (and empty/absent arrays are omitted instead),
and edit-load's `parseJsonField` on that string yields an equivalent
single-element array: same label, icon and desc values (the price-table keys
are additionally defaulted to `""`). -/
theorem offeringFeatures_roundtrip :
    (serializeNestedField (some [fastFeature])).isSome = true ∧
    serializeNestedField none = none ∧
    serializeNestedField (some []) = none ∧
    parseJsonField (serializeNestedField (some [fastFeature])) [] =
      [Json.obj [("desc", Json.str ""), ("icon", Json.str ""), ("label", Json.str "Fast"),
                 ("bhk", Json.str ""), ("time", Json.str ""), ("price", Json.str "")]] ∧
    (parseJsonField (serializeNestedField (some [fastFeature])) []).map
        (fun y => objLookup y "label") = [some (Json.str "Fast")] ∧
    (parseJsonField (serializeNestedField (some [fastFeature])) []).map
        (fun y => objLookup y "icon") = [some (Json.str "")] ∧
    (parseJsonField (serializeNestedField (some [fastFeature])) []).map
        (fun y => objLookup y "desc") = [some (Json.str "")] :=
  ⟨rfl, rfl, rfl, rfl, rfl, rfl, rfl⟩

/-- An offering with no stored nested fields (all absent). -/
def offeringNoPricetable : Offering :=
  { id := 1, service_code := "CLN-001", name := "Deep Cleaning", description := none,
    icon := none, price := some "999", category := some "Cleaning Services",
    subCategory := some "Full Home", image := none, features := none,
    requirements := none, exclusions := none, pricetable := none, popular := none,
    whatsapp_message := none }

/-- Counterexample to C7 as stated: an offering whose stored price table is
absent is seeded with an EMPTY price table (length 0), not with a single
empty placeholder row. -/
theorem editSeed_pricetable_cex :
    offeringNoPricetable.pricetable = none ∧
    (editSeed offeringNoPricetable).pricetable = [] ∧
    (editSeed offeringNoPricetable).pricetable.length ≠ 1 := by
  refine ⟨rfl, rfl, ?_⟩
  rw [show (editSeed offeringNoPricetable).pricetable = [] from rfl]
  decide

/-- C7 (amended): on edit-load, the features, requirements and exclusions
sections are seeded with a single empty placeholder row when their stored
field is absent or unparsable, but the price table is seeded with the empty
array; the seeding effect then guarantees at least one editable row for the
first three sections always, and for the price table only when the category
is "Cleaning Services" with subcategory "Full Home" or "Empty Home". -/
theorem editSeed_placeholders (offering : Offering) :
    (absentOrUnparsable offering.features →
      (editSeed offering).features = [featurePlaceholder]) ∧
    (absentOrUnparsable offering.requirements →
      (editSeed offering).requirements = [requirementPlaceholder]) ∧
    (absentOrUnparsable offering.exclusions →
      (editSeed offering).exclusions = [exclusionPlaceholder]) ∧
    (absentOrUnparsable offering.pricetable →
      (editSeed offering).pricetable = []) ∧
    (∀ v : FormValues,
      1 ≤ (ensureRows v).features.length ∧
      1 ≤ (ensureRows v).requirements.length ∧
      1 ≤ (ensureRows v).exclusions.length ∧
      ((v.category = "Cleaning Services" ∧
        (v.subCategory = "Full Home" ∨ v.subCategory = "Empty Home")) →
        1 ≤ (ensureRows v).pricetable.length)) := by
  refine ⟨?_, ?_, ?_, ?_, ?_⟩
  · intro h; exact parseJsonField_of_absentOrUnparsable _ _ h
  · intro h; exact parseJsonField_of_absentOrUnparsable _ _ h
  · intro h; exact parseJsonField_of_absentOrUnparsable _ _ h
  · intro h; exact parseJsonField_of_absentOrUnparsable _ _ h
  · intro v
    have hw : (ensureExclusionRow (ensureRequirementRow (ensureFeatureRow v))).category
          = v.category ∧
        (ensureExclusionRow (ensureRequirementRow (ensureFeatureRow v))).subCategory
          = v.subCategory ∧
        (ensureExclusionRow (ensureRequirementRow (ensureFeatureRow v))).pricetable
          = v.pricetable := by
      unfold ensureFeatureRow ensureRequirementRow ensureExclusionRow
      split_ifs <;> exact ⟨rfl, rfl, rfl⟩
    refine ⟨?_, ?_, ?_, ?_⟩
    · have hf : 1 ≤ (ensureFeatureRow v).features.length := by
        unfold ensureFeatureRow
        split_ifs with h
        · simp
        · omega
      have hpres : (ensureRows v).features = (ensureFeatureRow v).features := by
        unfold ensureRows ensureRequirementRow ensureExclusionRow ensurePriceTableRow
        split_ifs <;> rfl
      rw [hpres]; exact hf
    · have hf : 1 ≤ (ensureRequirementRow (ensureFeatureRow v)).requirements.length := by
        unfold ensureRequirementRow
        split_ifs with h
        · simp
        · omega
      have hpres : (ensureRows v).requirements
          = (ensureRequirementRow (ensureFeatureRow v)).requirements := by
        unfold ensureRows ensureExclusionRow ensurePriceTableRow
        split_ifs <;> rfl
      rw [hpres]; exact hf
    · have hf : 1 ≤ (ensureExclusionRow (ensureRequirementRow (ensureFeatureRow v))).exclusions.length := by
        unfold ensureExclusionRow
        split_ifs with h
        · simp
        · omega
      have hpres : (ensureRows v).exclusions
          = (ensureExclusionRow (ensureRequirementRow (ensureFeatureRow v))).exclusions := by
        unfold ensureRows ensurePriceTableRow
        split_ifs <;> rfl
      rw [hpres]; exact hf
    · intro hcond
      unfold ensureRows ensurePriceTableRow
      split_ifs with h
      · simp
      · have h0 : ¬ v.pricetable.length = 0 := by
          intro h0
          exact h ⟨by rw [hw.1]; exact hcond.1,
            by rw [hw.2.1]; exact hcond.2,
            by rw [hw.2.2]; exact h0⟩
        rw [hw.2.2]
        omega

/-- Witness for C7 (amended): the concrete offering with all nested fields
absent seeds features with one placeholder row and the price table empty,
and the effect then appends the price-table row for its cleaning category. -/
theorem editSeed_placeholders_witness :
    (editSeed offeringNoPricetable).features = [featurePlaceholder] ∧
    (editSeed offeringNoPricetable).pricetable = [] ∧
    1 ≤ (ensureRows (editSeed offeringNoPricetable)).features.length := by
  have h := editSeed_placeholders offeringNoPricetable
  exact ⟨h.1 trivial, h.2.2.2.1 trivial, (h.2.2.2.2 (editSeed offeringNoPricetable)).1⟩
